import Mathlib

/-!
Verification of the StudyVault RAG pipeline (chunking agent, orchestrator,
YouTube transcript agent) against its natural-language specification.

The Python code is shallowly embedded: external collaborators (the Qdrant
vector store, the OpenAI embedding endpoint, the PDF loader, the text
splitter and the youtube-transcript-api) are modelled as oracle fields of
an Env record; the record set of the vector store is threaded as explicit
state; every outgoing call is logged in a trace so that claims about
"no network call" / "no upsert" can be stated structurally.
-/

namespace StudyVault

/-- An embedding vector (the float entries are opaque data for every claim,
so they are modelled as integers). -/
abbrev Vec := List Int

/-- The metadata payload attached to every indexed point, field for field as
built in ChunkingIndexingAgent.index_chunks. -/
structure Payload where
  text : String
  user_id : Int
  user_name : String
  title : String
  source_type : String
  source_url : String
  library_item_id : Int
  chunk_index : Nat
  total_chunks : Nat
  timestamp : Nat
  deriving DecidableEq

/-- A Qdrant point: id, vector and payload. -/
structure PointStruct where
  id : String
  vector : Vec
  payload : Payload
  deriving DecidableEq

/-- The record set of the single Qdrant collection. -/
abbrev Store := List PointStruct

/-- One outgoing call to an external service, recorded in traces. -/
inductive ExtCall where
  | ensureCollection
  | extractPdf (file_path : String)
  | chunkSplit
  | embedAttempt (chunk_index attempt : Nat)
  | sleep (duration : Nat)
  | upsertCall (n : Nat)
  | deleteCall (library_item_id : Int)
  | searchCall (user_id : Int) (limit : Nat)
  | fetchCall (languages : List String)
  deriving DecidableEq

/-- config.py: MAX_RETRIES = 3. -/
def MAX_RETRIES : Nat := 3

/-- config.py: RETRY_DELAY = 1. -/
def RETRY_DELAY : Nat := 1

/-- Outcome of one call to YouTubeTranscriptApi.get_transcript: either a
list of segment texts, or one of the distinguishable failure conditions. -/
inductive FetchOutcome where
  | fetched (segments : List String)
  | transcriptsDisabled
  | noTranscriptFound
  | fetchError (message : String)
  deriving DecidableEq

/-- The environment of external-service behaviour for one run: what each
outgoing call would return.  embedAttemptRes i c k is the result of the
k-th attempt (0-based) to embed chunk c at position i; idGen i is the
i-th uuid4 draw; score is the similarity score the store computes. -/
structure Env where
  extractPdfRes : String → Except String String
  splitRes : String → Except String (List String)
  embedAttemptRes : Nat → String → Nat → Except String Vec
  queryEmbedRes : String → Except String Vec
  ensureFail : Option String
  upsertFail : Option String
  deleteFail : Option String
  searchFail : Option String
  fetchRes : String → List String → FetchOutcome
  score : Vec → Vec → Int
  idGen : Nat → String
  now : Nat

/-- The document-level metadata arguments of index_chunks. -/
structure DocMeta where
  user_id : Int
  user_name : String
  title : String
  source_type : String
  source_url : String
  library_item_id : Int
  deriving DecidableEq

/-- The PointStruct built in the loop body of index_chunks for loop index
i, chunk text chunk and vector embedding; total is len(chunks). -/
def mkPoint (env : Env) (meta : DocMeta) (total : Nat) (i : Nat)
    (chunk : String) (embedding : Vec) : PointStruct :=
  { id := env.idGen i
    vector := embedding
    payload :=
      { text := chunk
        user_id := meta.user_id
        user_name := meta.user_name
        title := meta.title
        source_type := meta.source_type
        source_url := meta.source_url
        library_item_id := meta.library_item_id
        chunk_index := i
        total_chunks := total
        timestamp := env.now } }

/-- The point list built by the loop
for i, (chunk, embedding) in enumerate(zip(chunks, embeddings))
in index_chunks: positional pairing, stopping at the shorter list, with i
the running index starting from k. -/
def buildPoints (env : Env) (meta : DocMeta) (total : Nat) :
    Nat → List String → List Vec → List PointStruct
  | _, [], _ => []
  | _, _ :: _, [] => []
  | i, chunk :: chunks, embedding :: embeddings =>
      mkPoint env meta total i chunk embedding ::
        buildPoints env meta total (i + 1) chunks embeddings

/-- Vector-store upsert semantics (spec section 6): insert-or-replace by
record id. -/
def storeUpsert (store : Store) (points : List PointStruct) : Store :=
  store.filter (fun r => points.all (fun p => p.id != r.id)) ++ points

/-- ChunkingIndexingAgent.index_chunks: ensure_collection, build one point
per zipped (chunk, embedding) pair, then a single upsert with wait=True.
Returns the generated point ids; any failure of the two outgoing calls is
re-raised (modelled as Except.error). -/
def index_chunks (env : Env) (store : Store) (chunks : List String)
    (embeddings : List Vec) (meta : DocMeta) :
    Except String (List String) × Store × List ExtCall :=
  match env.ensureFail with
  | some e => (Except.error e, store, [ExtCall.ensureCollection])
  | none =>
      let points := buildPoints env meta chunks.length 0 chunks embeddings
      match env.upsertFail with
      | some e =>
          (Except.error e, store,
            [ExtCall.ensureCollection, ExtCall.upsertCall points.length])
      | none =>
          (Except.ok (points.map PointStruct.id), storeUpsert store points,
            [ExtCall.ensureCollection, ExtCall.upsertCall points.length])

/-- The ids returned by a successful index_chunks call: one per built point. -/
def indexedIds (env : Env) (meta : DocMeta) (chunks : List String)
    (embeddings : List Vec) : List String :=
  (buildPoints env meta chunks.length 0 chunks embeddings).map PointStruct.id

/-- The retry loop body of ChunkingIndexingAgent.embed_chunks for the chunk
at position i: attempts run while retries < MAX_RETRIES; a failed attempt
increments retries and, when retries is still below MAX_RETRIES, sleeps
RETRY_DELAY * retries before the next attempt, otherwise re-raises the last
error unchanged.  fuel is MAX_RETRIES minus the current retries value. -/
def embedChunkLoop (env : Env) (i : Nat) (chunk : String) :
    Nat → Nat → Except String Vec × List ExtCall
  | _, 0 => (Except.error "", [])
  | retries, fuel + 1 =>
      match env.embedAttemptRes i chunk retries with
      | Except.ok v => (Except.ok v, [ExtCall.embedAttempt i retries])
      | Except.error e =>
          if retries + 1 < MAX_RETRIES then
            let rest := embedChunkLoop env i chunk (retries + 1) fuel
            (rest.1,
              ExtCall.embedAttempt i retries ::
                ExtCall.sleep (RETRY_DELAY * (retries + 1)) :: rest.2)
          else
            (Except.error e, [ExtCall.embedAttempt i retries])

/-- The outer loop of embed_chunks over the enumerated chunk list, starting
at chunk index k: the first chunk whose retry loop exhausts aborts the whole
call with that error; otherwise the vectors are collected in order. -/
def embedChunksGo (env : Env) : Nat → List String →
    Except String (List Vec) × List ExtCall
  | _, [] => (Except.ok [], [])
  | k, chunk :: rest =>
      let r := embedChunkLoop env k chunk 0 MAX_RETRIES
      match r.1 with
      | Except.error e => (Except.error e, r.2)
      | Except.ok v =>
          let r2 := embedChunksGo env (k + 1) rest
          match r2.1 with
          | Except.error e => (Except.error e, r.2 ++ r2.2)
          | Except.ok vs => (Except.ok (v :: vs), r.2 ++ r2.2)

/-- ChunkingIndexingAgent.embed_chunks. -/
def embed_chunks (env : Env) (chunks : List String) :
    Except String (List Vec) × List ExtCall :=
  embedChunksGo env 0 chunks

/-- ChunkingIndexingAgent.delete_by_library_item_id: one delete call with a
must-match filter on the library_item_id payload field, wait=True; store
failure is re-raised. -/
def delete_by_library_item_id (env : Env) (store : Store)
    (library_item_id : Int) : Except String Unit × Store × List ExtCall :=
  match env.deleteFail with
  | some e => (Except.error e, store, [ExtCall.deleteCall library_item_id])
  | none =>
      (Except.ok (),
        store.filter (fun p => p.payload.library_item_id != library_item_id),
        [ExtCall.deleteCall library_item_id])

/-- One entry of the results list built in RAGOrchestrator.search_documents. -/
structure SearchResult where
  text : String
  title : String
  source_type : String
  score : Int
  chunk_index : Nat
  deriving DecidableEq

/-- A value of one of the shapes that occur in the returned dictionaries. -/
inductive Value where
  | vStr (s : String)
  | vNat (n : Nat)
  | vStrList (l : List String)
  | vResList (l : List SearchResult)
  deriving DecidableEq

/-- A Python dictionary returned by a pipeline entry point. -/
abbrev Dict := List (String × Value)

/-- Dictionary key lookup. -/
def getVal (d : Dict) (k : String) : Option Value :=
  (d.find? (fun kv => kv.1 == k)).map Prod.snd

/-- The uniform error envelope: status "error" plus the message. -/
def errorEnvelope (e : String) : Dict :=
  [("status", Value.vStr "error"), ("error", Value.vStr e)]

/-- Result of one pipeline run: the returned dictionary, the state of the
vector store afterwards, and the trace of outgoing calls. -/
structure PipeOut where
  result : Dict
  store : Store
  trace : List ExtCall

/-- Qdrant search semantics (spec section 6): keep the records whose payload
user_id matches the mandatory filter, score each against the query vector,
rank by descending score (modelled by a deterministic sort), return the
first limit records. -/
def qdrantSearch (env : Env) (store : Store) (query_vector : Vec)
    (user_id : Int) (limit : Nat) : List (PointStruct × Int) :=
  ((((store.filter (fun p => p.payload.user_id == user_id)).map
      (fun p => (p, env.score query_vector p.vector))).insertionSort
      (fun a b => b.2 ≤ a.2)).take limit)

/-- The projection of one scored hit onto the five result fields of
RAGOrchestrator.search_documents. -/
def projectHit (h : PointStruct × Int) : SearchResult :=
  SearchResult.mk h.1.payload.text h.1.payload.title h.1.payload.source_type
    h.2 h.1.payload.chunk_index

/-- The results list a successful search_documents call builds. -/
def searchResults (env : Env) (store : Store) (qv : Vec) (user_id : Int)
    (limit : Nat) : List SearchResult :=
  (qdrantSearch env store qv user_id limit).map projectHit

/-- ChunkingIndexingAgent.process_pdf: extract text, chunk, embed with
retry, index; any stage error is caught and converted to the error
envelope. -/
def process_pdf (env : Env) (store : Store) (file_path : String)
    (user_id : Int) (user_name title : String) (library_item_id : Int) :
    PipeOut :=
  match env.extractPdfRes file_path with
  | Except.error e =>
      ⟨errorEnvelope e, store, [ExtCall.extractPdf file_path]⟩
  | Except.ok text =>
      match env.splitRes text with
      | Except.error e =>
          ⟨errorEnvelope e, store,
            [ExtCall.extractPdf file_path, ExtCall.chunkSplit]⟩
      | Except.ok chunks =>
          let er := embed_chunks env chunks
          match er.1 with
          | Except.error e =>
              ⟨errorEnvelope e, store,
                ExtCall.extractPdf file_path :: ExtCall.chunkSplit :: er.2⟩
          | Except.ok embeddings =>
              let ir := index_chunks env store chunks embeddings
                ⟨user_id, user_name, title, "pdf", file_path, library_item_id⟩
              match ir.1 with
              | Except.error e =>
                  ⟨errorEnvelope e, ir.2.1,
                    ExtCall.extractPdf file_path :: ExtCall.chunkSplit ::
                      (er.2 ++ ir.2.2)⟩
              | Except.ok point_ids =>
                  ⟨[("status", Value.vStr "success"),
                    ("point_ids", Value.vStrList point_ids),
                    ("chunk_count", Value.vNat chunks.length),
                    ("character_count", Value.vNat text.length)],
                    ir.2.1,
                    ExtCall.extractPdf file_path :: ExtCall.chunkSplit ::
                      (er.2 ++ ir.2.2)⟩

/-- ChunkingIndexingAgent.process_youtube_transcript: chunk the transcript,
embed with retry, index; any stage error is caught and converted to the
error envelope. -/
def process_youtube_transcript (env : Env) (store : Store)
    (transcript : String) (user_id : Int) (user_name title : String)
    (youtube_url : String) (library_item_id : Int) : PipeOut :=
  match env.splitRes transcript with
  | Except.error e => ⟨errorEnvelope e, store, [ExtCall.chunkSplit]⟩
  | Except.ok chunks =>
      let er := embed_chunks env chunks
      match er.1 with
      | Except.error e =>
          ⟨errorEnvelope e, store, ExtCall.chunkSplit :: er.2⟩
      | Except.ok embeddings =>
          let ir := index_chunks env store chunks embeddings
            ⟨user_id, user_name, title, "youtube", youtube_url,
              library_item_id⟩
          match ir.1 with
          | Except.error e =>
              ⟨errorEnvelope e, ir.2.1,
                ExtCall.chunkSplit :: (er.2 ++ ir.2.2)⟩
          | Except.ok point_ids =>
              ⟨[("status", Value.vStr "success"),
                ("point_ids", Value.vStrList point_ids),
                ("chunk_count", Value.vNat chunks.length),
                ("character_count", Value.vNat transcript.length)],
                ir.2.1,
                ExtCall.chunkSplit :: (er.2 ++ ir.2.2)⟩

/- YouTubeAgent (youtube_agent.py). -/

/-- The character class excluded by the capture group of both video-id
patterns. -/
def stopChars : List Char := ['&', '\n', '?', '#']

/-- The capture group of the video-id patterns: the maximal run of
characters containing no stop character. -/
def takeIdChars (s : List Char) : List Char :=
  s.takeWhile (fun c => !(stopChars.contains c))

/-- Try the marker alternatives in order at the current position; on a match
return the remainder of the input after the marker. -/
def matchAnyMarker : List (List Char) → List Char → Option (List Char)
  | [], _ => none
  | m :: ms, s =>
      if m.isPrefixOf s then some (s.drop m.length) else matchAnyMarker ms s

/-- Leftmost search for a marker followed by a nonempty capture, as re.search
performs for the first video-id pattern. -/
def scanForId (markers : List (List Char)) : List Char → Option (List Char)
  | [] => none
  | c :: rest =>
      match matchAnyMarker markers (c :: rest) with
      | some tail =>
          let cap := takeIdChars tail
          if cap.isEmpty then scanForId markers rest else some cap
      | none => scanForId markers rest

/-- The rightmost occurrence of "v=" followed by a nonempty capture, which is
what the greedy dot-star of the second pattern selects. -/
def lastVCapture : List Char → Option (List Char)
  | [] => none
  | c :: rest =>
      match lastVCapture rest with
      | some cap => some cap
      | none =>
          if ("v=".toList).isPrefixOf (c :: rest) then
            let cap := takeIdChars ((c :: rest).drop 2)
            if cap.isEmpty then none else some cap
          else none

/-- The three marker alternatives of the first video-id pattern, in
alternation order. -/
def firstMarkers : List (List Char) :=
  ["youtube.com/watch?v=".toList, "youtu.be/".toList,
    "youtube.com/embed/".toList]

/-- The second video-id pattern: at each occurrence of the watch marker, the
greedy dot-star may not cross a newline, so the "v=" capture is searched
only in the rest of that line; an occurrence with no capture falls through
to later occurrences, as re.search backtracks over later match starts. -/
def scanWatchVId : List Char → Option (List Char)
  | [] => none
  | c :: rest =>
      if ("youtube.com/watch?".toList).isPrefixOf (c :: rest) then
        match lastVCapture
            (((c :: rest).drop ("youtube.com/watch?".toList.length)).takeWhile
              (fun ch => ch ≠ '\n')) with
        | some cap => some cap
        | none => scanWatchVId rest
      else scanWatchVId rest

/-- YouTubeAgent.extract_video_id: the first pattern, then the second
pattern as fallback; None when neither matches. -/
def extract_video_id (url : String) : Option String :=
  match scanForId firstMarkers url.toList with
  | some cap => some (String.mk cap)
  | none =>
      match scanWatchVId url.toList with
      | none => none
      | some cap => some (String.mk cap)

/-- YouTubeAgent.fetch_transcript: resolve the video id (None on failure,
with no provider call), call the transcript provider once, join the segment
texts with single spaces; every provider failure condition
(TranscriptsDisabled, NoTranscriptFound, any other exception) is caught and
returns None. -/
def fetch_transcript (env : Env) (url : String) (languages : List String) :
    Option String × List ExtCall :=
  match extract_video_id url with
  | none => (none, [])
  | some video_id =>
      match env.fetchRes video_id languages with
      | FetchOutcome.fetched segments =>
          (some (String.intercalate " " segments),
            [ExtCall.fetchCall languages])
      | _ => (none, [ExtCall.fetchCall languages])

/-- The fixed language priority list of
YouTubeAgent.fetch_transcript_with_fallback. -/
def language_attempts : List (List String) :=
  [["en"], ["en-US"], ["en-GB"], ["es", "en"], ["fr", "en"], ["de", "en"]]

/-- The fallback loop: try each language group in order; the test
`if transcript:` is Python string truthiness, so a missing transcript AND a
fetched empty transcript both send the loop on to the next group; the first
non-empty transcript is returned, and a failed attempt never stops the
loop. -/
def fallbackLoop (env : Env) (url : String) :
    List (List String) → Option String × List ExtCall
  | [] => (none, [])
  | languages :: rest =>
      let r := fetch_transcript env url languages
      match r.1 with
      | some t =>
          if t.isEmpty then
            let r2 := fallbackLoop env url rest
            (r2.1, r.2 ++ r2.2)
          else (some t, r.2)
      | none =>
          let r2 := fallbackLoop env url rest
          (r2.1, r.2 ++ r2.2)

/-- YouTubeAgent.fetch_transcript_with_fallback. -/
def fetch_transcript_with_fallback (env : Env) (url : String) :
    Option String × List ExtCall :=
  fallbackLoop env url language_attempts

/- RAGOrchestrator (rag_orchestrator.py). -/

/-- RAGOrchestrator.process_pdf_upload: delegates to process_pdf, whose
result dictionary is already a uniform envelope; the surrounding
try/except adds no further behaviour in this model. -/
def process_pdf_upload (env : Env) (store : Store) (file_path : String)
    (user_id : Int) (user_name title : String) (library_item_id : Int) :
    PipeOut :=
  process_pdf env store file_path user_id user_name title library_item_id

/-- RAGOrchestrator.process_youtube_upload: fetch the transcript with
language fallback; a missing transcript returns the fixed error envelope
without running any later stage; otherwise delegate to
process_youtube_transcript. -/
def process_youtube_upload (env : Env) (store : Store)
    (youtube_url : String) (user_id : Int) (user_name title : String)
    (library_item_id : Int) : PipeOut :=
  let f := fetch_transcript_with_fallback env youtube_url
  match f.1 with
  | none =>
      ⟨errorEnvelope "Failed to fetch YouTube transcript", store, f.2⟩
  | some transcript =>
      if transcript.isEmpty then
        ⟨errorEnvelope "Failed to fetch YouTube transcript", store, f.2⟩
      else
        let p := process_youtube_transcript env store transcript user_id
          user_name title youtube_url library_item_id
        ⟨p.result, p.store, f.2 ++ p.trace⟩

/-- RAGOrchestrator.delete_document: delegate to
delete_by_library_item_id and wrap the outcome in the uniform envelope. -/
def delete_document (env : Env) (store : Store) (library_item_id : Int) :
    PipeOut :=
  let d := delete_by_library_item_id env store library_item_id
  match d.1 with
  | Except.ok _ => ⟨[("status", Value.vStr "success")], d.2.1, d.2.2⟩
  | Except.error e => ⟨errorEnvelope e, d.2.1, d.2.2⟩

/-- RAGOrchestrator.search_documents: embed the query, search Qdrant with
the mandatory user_id filter and the limit, project each hit onto the
five result fields; any failure returns the error envelope extended with an
empty results list. -/
def search_documents (env : Env) (store : Store) (query : String)
    (user_id : Int) (limit : Nat) : PipeOut :=
  match env.queryEmbedRes query with
  | Except.error e =>
      ⟨errorEnvelope e ++ [("results", Value.vResList [])], store, []⟩
  | Except.ok query_embedding =>
      match env.searchFail with
      | some e =>
          ⟨errorEnvelope e ++ [("results", Value.vResList [])], store,
            [ExtCall.searchCall user_id limit]⟩
      | none =>
          let results := searchResults env store query_embedding user_id
            limit
          ⟨[("status", Value.vStr "success"),
            ("results", Value.vResList results),
            ("count", Value.vNat results.length)], store,
            [ExtCall.searchCall user_id limit]⟩

/- Predicates used by the theorems. -/

/-- Whether a trace entry is an upsert call. -/
def ExtCall.isUpsertCall : ExtCall → Bool
  | ExtCall.upsertCall _ => true
  | _ => false

/-- Whether a trace entry is an embedding attempt. -/
def ExtCall.isEmbedAttempt : ExtCall → Bool
  | ExtCall.embedAttempt _ _ => true
  | _ => false

/-- Whether a trace entry is a chunk-splitting call. -/
def ExtCall.isChunkSplit : ExtCall → Bool
  | ExtCall.chunkSplit => true
  | _ => false

/-- Whether a trace entry is a transcript fetch. -/
def ExtCall.isFetchCall : ExtCall → Bool
  | ExtCall.fetchCall _ => true
  | _ => false

/-- The uniform envelope shape of spec section 6: status "success", or
status "error" together with an error message. -/
def isEnvelope (d : Dict) : Prop :=
  getVal d "status" = some (Value.vStr "success") ∨
    (getVal d "status" = some (Value.vStr "error") ∧
      ∃ m, getVal d "error" = some (Value.vStr m))

/- Concrete fixtures used by counterexamples and witnesses. -/

/-- A fixture environment: both store calls succeed, ids are the loop index
printed in decimal. -/
def envA : Env :=
  { extractPdfRes := fun _ => Except.error "unused"
    splitRes := fun _ => Except.error "unused"
    embedAttemptRes := fun _ _ _ => Except.error "unused"
    queryEmbedRes := fun _ => Except.error "unused"
    ensureFail := none
    upsertFail := none
    deleteFail := none
    searchFail := none
    fetchRes := fun _ _ => FetchOutcome.noTranscriptFound
    score := fun _ _ => 0
    idGen := fun i => toString i
    now := 0 }

/-- Fixture metadata. -/
def metaA : DocMeta :=
  { user_id := 7
    user_name := "u"
    title := "t"
    source_type := "pdf"
    source_url := "p"
    library_item_id := 42 }

/-- Fixture: the embedding provider fails every attempt for chunk 0 with the
bare error "boom" and succeeds immediately for every other chunk. -/
def envFail0 : Env :=
  { envA with embedAttemptRes := fun i _ _ =>
      if i == 0 then Except.error "boom" else Except.ok [0] }

/-- Fixture: the embedding provider succeeds immediately for chunk 0 and
fails every attempt for every other chunk with the bare error "boom". -/
def envFail1 : Env :=
  { envA with embedAttemptRes := fun i _ _ =>
      if i == 0 then Except.ok [0] else Except.error "boom" }

/-- Fixture: PDF extraction and splitting succeed, every embedding attempt
fails. -/
def envPdfEmbedFail : Env :=
  { envFail0 with
    extractPdfRes := fun _ => Except.ok "text"
    splitRes := fun _ => Except.ok ["a", "b"]
    embedAttemptRes := fun _ _ _ => Except.error "boom" }

/-- Fixture: the transcript provider yields a transcript for the en-GB
group only. -/
def envFetchGB : Env :=
  { envA with fetchRes := fun _ languages =>
      if languages == ["en-GB"] then FetchOutcome.fetched ["hello", "world"]
      else FetchOutcome.transcriptsDisabled }

/-- Fixture: the provider fetches an empty transcript (zero segments) for
the en group, the transcript "hello" for the en-US group, and has
transcripts disabled elsewhere. -/
def envEmptyEn : Env :=
  { envA with fetchRes := fun _ languages =>
      if languages == ["en"] then FetchOutcome.fetched []
      else if languages == ["en-US"] then FetchOutcome.fetched ["hello"]
      else FetchOutcome.transcriptsDisabled }

/-- Fixture: the provider fetches an empty transcript (zero segments) for
every language group. -/
def envEmptyAll : Env :=
  { envA with fetchRes := fun _ _ => FetchOutcome.fetched [] }

/-- Fixture: query embedding succeeds; the store scores a vector by its
first entry. -/
def envSearch : Env :=
  { envA with
    queryEmbedRes := fun _ => Except.ok [1]
    score := fun _ v => v.headD 0 }

/-- A fixture payload for user 7. -/
def payloadW (uid : Int) (lid : Int) (txt : String) (ci : Nat) : Payload :=
  { text := txt
    user_id := uid
    user_name := "u"
    title := "t"
    source_type := "pdf"
    source_url := "p"
    library_item_id := lid
    chunk_index := ci
    total_chunks := 2
    timestamp := 0 }

/-- A fixture store holding records of two users and two documents. -/
def storeW : Store :=
  [⟨"p1", [5], payloadW 7 42 "a" 0⟩,
   ⟨"p2", [9], payloadW 7 42 "b" 1⟩,
   ⟨"p3", [3], payloadW 8 43 "c" 0⟩]

/-!  Theorems. -/

theorem buildPoints_length (env : Env) (meta : DocMeta) (total : Nat) :
    ∀ (chunks : List String) (embeddings : List Vec) (k : Nat),
      (buildPoints env meta total k chunks embeddings).length =
        min chunks.length embeddings.length := by
  intro chunks
  induction chunks with
  | nil => intro embeddings k; simp [buildPoints]
  | cons c cs ih =>
      intro embeddings k
      cases embeddings with
      | nil => simp [buildPoints]
      | cons v vs =>
          simp [buildPoints, ih vs (k + 1), Nat.succ_min_succ]

theorem buildPoints_total_chunks (env : Env) (meta : DocMeta) (total : Nat) :
    ∀ (chunks : List String) (embeddings : List Vec) (k : Nat)
      (p : PointStruct), p ∈ buildPoints env meta total k chunks embeddings →
      p.payload.total_chunks = total := by
  intro chunks
  induction chunks with
  | nil => intro embeddings k p hp; simp [buildPoints] at hp
  | cons c cs ih =>
      intro embeddings k p hp
      cases embeddings with
      | nil => simp [buildPoints] at hp
      | cons v vs =>
          simp only [buildPoints, List.mem_cons] at hp
          rcases hp with hp | hp
          · subst hp; rfl
          · exact ih vs (k + 1) p hp

theorem buildPoints_get? (env : Env) (meta : DocMeta) (total : Nat) :
    ∀ (i : Nat) (chunks : List String) (embeddings : List Vec) (k : Nat)
      (c : String) (v : Vec), chunks.get? i = some c →
      embeddings.get? i = some v →
      (buildPoints env meta total k chunks embeddings).get? i =
        some (mkPoint env meta total (k + i) c v) := by
  intro i
  induction i with
  | zero =>
      intro chunks embeddings k c v hc hv
      cases chunks with
      | nil => simp at hc
      | cons c0 cs =>
          cases embeddings with
          | nil => simp at hv
          | cons v0 vs =>
              simp at hc hv
              subst hc; subst hv
              simp [buildPoints]
  | succ i ih =>
      intro chunks embeddings k c v hc hv
      cases chunks with
      | nil => simp at hc
      | cons c0 cs =>
          cases embeddings with
          | nil => simp at hv
          | cons v0 vs =>
              simp only [List.get?_cons_succ] at hc hv
              have h := ih cs vs (k + 1) c v hc hv
              simp only [buildPoints, List.get?_cons_succ, h]
              congr 2
              omega

/-- C1 counterexample: index_chunks called with 2 chunks but only 1 vector
does NOT fail with a validation error before any network call — it succeeds,
makes both the collection call and the upsert network call, and stores 1
record (not 2 and not 0). -/
theorem index_chunks_no_validation_counterexample :
    (index_chunks envA [] ["a", "b"] [[1]] metaA).1 = Except.ok ["0"] ∧
    ExtCall.ensureCollection ∈ (index_chunks envA [] ["a", "b"] [[1]] metaA).2.2 ∧
    ExtCall.upsertCall 1 ∈ (index_chunks envA [] ["a", "b"] [[1]] metaA).2.2 ∧
    (index_chunks envA [] ["a", "b"] [[1]] metaA).2.1.length = 1 := by
  refine ⟨rfl, by decide, by decide, rfl⟩

/-- C1 amended: index_chunks performs no length validation.  When both store
calls succeed it always returns ok with exactly min(len chunks, len
embeddings) ids, so record count == chunk count == vector count holds
exactly when the two input lengths already agree. -/
theorem index_chunks_success_count (env : Env) (store : Store)
    (chunks : List String) (embeddings : List Vec) (meta : DocMeta)
    (hens : env.ensureFail = none) (hups : env.upsertFail = none) :
    (index_chunks env store chunks embeddings meta).1 =
      Except.ok (indexedIds env meta chunks embeddings) ∧
    (indexedIds env meta chunks embeddings).length =
      min chunks.length embeddings.length ∧
    (chunks.length = embeddings.length →
      (indexedIds env meta chunks embeddings).length = chunks.length ∧
      (indexedIds env meta chunks embeddings).length = embeddings.length) := by
  refine ⟨?_, ?_, ?_⟩
  · simp [index_chunks, hens, hups, indexedIds]
  · simp [indexedIds, buildPoints_length]
  · intro hlen
    simp [indexedIds, buildPoints_length, hlen]

/-- C1 amended, witness at a concrete mismatched input. -/
theorem index_chunks_success_count_witness :
    (index_chunks envA [] ["a", "b"] [[1]] metaA).1 =
      Except.ok (indexedIds envA metaA ["a", "b"] [[1]]) ∧
    (indexedIds envA metaA ["a", "b"] [[1]]).length =
      min (["a", "b"] : List String).length ([[1]] : List Vec).length ∧
    ((["a", "b"] : List String).length = ([[1]] : List Vec).length →
      (indexedIds envA metaA ["a", "b"] [[1]]).length =
        (["a", "b"] : List String).length ∧
      (indexedIds envA metaA ["a", "b"] [[1]]).length =
        ([[1]] : List Vec).length) :=
  index_chunks_success_count envA [] ["a", "b"] [[1]] metaA rfl rfl

/-- C10: with mismatched input lengths, index_chunks still succeeds, pairing
by position: it upserts and returns ids for exactly min(len chunks, len
embeddings) records, every upserted record has a total_chunks field equal to
len(chunks), and when there are fewer vectors than chunks the stored
total_chunks strictly exceeds the number of records actually stored. -/
theorem index_chunks_zip_truncation (env : Env) (store : Store)
    (chunks : List String) (embeddings : List Vec) (meta : DocMeta)
    (hens : env.ensureFail = none) (hups : env.upsertFail = none) :
    (index_chunks env store chunks embeddings meta).1 =
      Except.ok (indexedIds env meta chunks embeddings) ∧
    (indexedIds env meta chunks embeddings).length =
      min chunks.length embeddings.length ∧
    (index_chunks env store chunks embeddings meta).2.1 =
      storeUpsert store (buildPoints env meta chunks.length 0 chunks embeddings) ∧
    (buildPoints env meta chunks.length 0 chunks embeddings).length =
      min chunks.length embeddings.length ∧
    (∀ p ∈ buildPoints env meta chunks.length 0 chunks embeddings,
      p.payload.total_chunks = chunks.length) ∧
    (embeddings.length < chunks.length →
      ∀ p ∈ buildPoints env meta chunks.length 0 chunks embeddings,
        (buildPoints env meta chunks.length 0 chunks embeddings).length <
          p.payload.total_chunks) := by
  refine ⟨?_, ?_, ?_, ?_, ?_, ?_⟩
  · simp [index_chunks, hens, hups, indexedIds]
  · simp [indexedIds, buildPoints_length]
  · simp [index_chunks, hens, hups]
  · exact buildPoints_length env meta chunks.length chunks embeddings 0
  · exact fun p hp => buildPoints_total_chunks env meta chunks.length chunks
      embeddings 0 p hp
  · intro hlt p hp
    have h1 := buildPoints_length env meta chunks.length chunks embeddings 0
    have h2 := buildPoints_total_chunks env meta chunks.length chunks
      embeddings 0 p hp
    omega

/-- C10, witness at the concrete mismatched input: 2 chunks, 1 vector. -/
theorem index_chunks_zip_truncation_witness :
    (index_chunks envA [] ["a", "b"] [[1]] metaA).1 =
      Except.ok (indexedIds envA metaA ["a", "b"] [[1]]) ∧
    (indexedIds envA metaA ["a", "b"] [[1]]).length =
      min (["a", "b"] : List String).length ([[1]] : List Vec).length ∧
    (index_chunks envA [] ["a", "b"] [[1]] metaA).2.1 =
      storeUpsert []
        (buildPoints envA metaA (["a", "b"] : List String).length 0
          ["a", "b"] [[1]]) ∧
    (buildPoints envA metaA (["a", "b"] : List String).length 0
        ["a", "b"] [[1]]).length =
      min (["a", "b"] : List String).length ([[1]] : List Vec).length ∧
    (∀ p ∈ buildPoints envA metaA (["a", "b"] : List String).length 0
        ["a", "b"] [[1]],
      p.payload.total_chunks = (["a", "b"] : List String).length) ∧
    (([[1]] : List Vec).length < (["a", "b"] : List String).length →
      ∀ p ∈ buildPoints envA metaA (["a", "b"] : List String).length 0
          ["a", "b"] [[1]],
        (buildPoints envA metaA (["a", "b"] : List String).length 0
            ["a", "b"] [[1]]).length < p.payload.total_chunks) :=
  index_chunks_zip_truncation envA [] ["a", "b"] [[1]] metaA rfl rfl

/-- C2: on equal-length input, a successful index_chunks returns exactly
len(chunks) ids, order-aligned with the input: the i-th id is the i-th
generated uuid, and the i-th built/upserted record carries that id, vector
embeddings[i], and a payload with text chunks[i], chunk_index i,
total_chunks len(chunks) and the supplied metadata fields. -/
theorem index_chunks_order_aligned (env : Env) (store : Store)
    (chunks : List String) (embeddings : List Vec) (meta : DocMeta)
    (hlen : chunks.length = embeddings.length)
    (hens : env.ensureFail = none) (hups : env.upsertFail = none) :
    (index_chunks env store chunks embeddings meta).1 =
      Except.ok (indexedIds env meta chunks embeddings) ∧
    (indexedIds env meta chunks embeddings).length = chunks.length ∧
    (index_chunks env store chunks embeddings meta).2.1 =
      storeUpsert store (buildPoints env meta chunks.length 0 chunks embeddings) ∧
    (∀ i c v, chunks.get? i = some c → embeddings.get? i = some v →
      (indexedIds env meta chunks embeddings).get? i = some (env.idGen i) ∧
      (buildPoints env meta chunks.length 0 chunks embeddings).get? i =
        some
          { id := env.idGen i
            vector := v
            payload :=
              { text := c
                user_id := meta.user_id
                user_name := meta.user_name
                title := meta.title
                source_type := meta.source_type
                source_url := meta.source_url
                library_item_id := meta.library_item_id
                chunk_index := i
                total_chunks := chunks.length
                timestamp := env.now } }) := by
  refine ⟨?_, ?_, ?_, ?_⟩
  · simp [index_chunks, hens, hups, indexedIds]
  · simp [indexedIds, buildPoints_length, hlen]
  · simp [index_chunks, hens, hups]
  · intro i c v hc hv
    have hbp := buildPoints_get? env meta chunks.length i chunks embeddings 0
      c v hc hv
    rw [Nat.zero_add] at hbp
    constructor
    · simp only [indexedIds, List.get?_eq_getElem?, List.getElem?_map]
      rw [List.get?_eq_getElem?] at hbp
      rw [hbp]
      rfl
    · rw [hbp]; rfl

/-- C2, witness at a concrete equal-length input, with the order-alignment
conjunct instantiated at index 1. -/
theorem index_chunks_order_aligned_witness :
    (index_chunks envA [] ["a", "b"] [[1], [2]] metaA).1 =
      Except.ok (indexedIds envA metaA ["a", "b"] [[1], [2]]) ∧
    (indexedIds envA metaA ["a", "b"] [[1], [2]]).get? 1 =
      some (envA.idGen 1) ∧
    (buildPoints envA metaA (["a", "b"] : List String).length 0
        ["a", "b"] [[1], [2]]).get? 1 =
      some
        { id := envA.idGen 1
          vector := [2]
          payload :=
            { text := "b"
              user_id := metaA.user_id
              user_name := metaA.user_name
              title := metaA.title
              source_type := metaA.source_type
              source_url := metaA.source_url
              library_item_id := metaA.library_item_id
              chunk_index := 1
              total_chunks := (["a", "b"] : List String).length
              timestamp := envA.now } } := by
  have h := index_chunks_order_aligned envA [] ["a", "b"] [[1], [2]] metaA
    rfl rfl rfl
  exact ⟨h.1, (h.2.2.2 1 "b" [2] rfl rfl).1, (h.2.2.2 1 "b" [2] rfl rfl).2⟩

theorem embedChunksGo_all_ok (env : Env) :
    ∀ (l : List String) (k : Nat),
      (∀ j cj, l.get? j = some cj →
        ∃ vv, (embedChunkLoop env (k + j) cj 0 MAX_RETRIES).1 = Except.ok vv) →
      ∃ vs, (embedChunksGo env k l).1 = Except.ok vs ∧
        vs.length = l.length := by
  intro l
  induction l with
  | nil => intro k h; exact ⟨[], rfl, rfl⟩
  | cons c cs ih =>
      intro k h
      obtain ⟨v, hv⟩ := h 0 c rfl
      rw [Nat.add_zero] at hv
      have hrest : ∀ j cj, cs.get? j = some cj →
          ∃ vv, (embedChunkLoop env (k + 1 + j) cj 0 MAX_RETRIES).1 =
            Except.ok vv := by
        intro j cj hj
        have hh := h (j + 1) cj (by simpa using hj)
        rw [show k + (j + 1) = k + 1 + j from by omega] at hh
        exact hh
      obtain ⟨vs, hvs, hlen⟩ := ih (k + 1) hrest
      refine ⟨v :: vs, ?_, by simp [hlen]⟩
      simp only [embedChunksGo]
      rw [hv, hvs]

theorem embedChunksGo_first_error (env : Env) :
    ∀ (l : List String) (k j : Nat) (cj : String) (e : String),
      l.get? j = some cj →
      (∀ j2 c2, j2 < j → l.get? j2 = some c2 →
        ∃ vv, (embedChunkLoop env (k + j2) c2 0 MAX_RETRIES).1 =
          Except.ok vv) →
      (embedChunkLoop env (k + j) cj 0 MAX_RETRIES).1 = Except.error e →
      (embedChunksGo env k l).1 = Except.error e := by
  intro l
  induction l with
  | nil => intro k j cj e hj _ _; simp at hj
  | cons c cs ih =>
      intro k j cj e hj hprev herr
      cases j with
      | zero =>
          simp at hj
          subst hj
          rw [Nat.add_zero] at herr
          simp only [embedChunksGo]
          rw [herr]
      | succ j =>
          obtain ⟨v, hv⟩ := hprev 0 c (Nat.succ_pos j) rfl
          rw [Nat.add_zero] at hv
          simp only [List.get?_cons_succ] at hj
          have hprev2 : ∀ j2 c2, j2 < j → cs.get? j2 = some c2 →
              ∃ vv, (embedChunkLoop env (k + 1 + j2) c2 0 MAX_RETRIES).1 =
                Except.ok vv := by
            intro j2 c2 hlt h2
            have hh := hprev (j2 + 1) c2 (by omega) (by simpa using h2)
            rw [show k + (j2 + 1) = k + 1 + j2 from by omega] at hh
            exact hh
          rw [show k + (j + 1) = k + 1 + j from by omega] at herr
          have hrec := ih (k + 1) j cj e hj hprev2 herr
          simp only [embedChunksGo]
          rw [hv, hrec]

/-- C3 counterexample: the error surfaced when every retry for some chunk is
exhausted is the bare last underlying provider error, with no chunk index
attached.  The run failing at chunk 0 and the run failing at chunk 1 surface
the identical error value (the traces prove which chunk failed in each
run), so the surfaced error cannot identify the chunk index. -/
theorem embed_chunks_error_without_index_counterexample :
    (embed_chunks envFail0 ["a", "b"]).1 = Except.error "boom" ∧
    (embed_chunks envFail1 ["a", "b"]).1 = Except.error "boom" ∧
    (embed_chunks envFail0 ["a", "b"]).2 =
      [ExtCall.embedAttempt 0 0, ExtCall.sleep 1, ExtCall.embedAttempt 0 1,
        ExtCall.sleep 2, ExtCall.embedAttempt 0 2] ∧
    (embed_chunks envFail1 ["a", "b"]).2 =
      [ExtCall.embedAttempt 0 0, ExtCall.embedAttempt 1 0, ExtCall.sleep 1,
        ExtCall.embedAttempt 1 1, ExtCall.sleep 2,
        ExtCall.embedAttempt 1 2] ∧
    (embed_chunks envFail0 ["a", "b"]).1 =
      (embed_chunks envFail1 ["a", "b"]).1 := by
  refine ⟨rfl, rfl, by decide, by decide, rfl⟩

/-- C3 amended: embed_chunks makes at most MAX_RETRIES attempts per chunk;
after failed attempt k (1-based) with k < MAX_RETRIES it sleeps
RETRY_DELAY * k before retrying (linear backoff); if all MAX_RETRIES
attempts for the first failing chunk fail, the whole call fails with the
last underlying error re-raised unchanged (the chunk index is only logged,
not attached to the error); and intermediate attempt failures are not
surfaced: whenever every chunk eventually embeds within MAX_RETRIES
attempts the call returns ok with one vector per chunk.  The first four
conjuncts characterize the per-chunk retry loop exhaustively over the
outcomes of the at most three attempts, so no fourth attempt ever occurs. -/
theorem embed_chunks_retry_policy (env : Env) (i : Nat) (c : String)
    (e0 e1 e2 : String) (v : Vec) :
    (env.embedAttemptRes i c 0 = Except.ok v →
      embedChunkLoop env i c 0 MAX_RETRIES =
        (Except.ok v, [ExtCall.embedAttempt i 0])) ∧
    (env.embedAttemptRes i c 0 = Except.error e0 →
      env.embedAttemptRes i c 1 = Except.ok v →
      embedChunkLoop env i c 0 MAX_RETRIES =
        (Except.ok v,
          [ExtCall.embedAttempt i 0, ExtCall.sleep (RETRY_DELAY * 1),
            ExtCall.embedAttempt i 1])) ∧
    (env.embedAttemptRes i c 0 = Except.error e0 →
      env.embedAttemptRes i c 1 = Except.error e1 →
      env.embedAttemptRes i c 2 = Except.ok v →
      embedChunkLoop env i c 0 MAX_RETRIES =
        (Except.ok v,
          [ExtCall.embedAttempt i 0, ExtCall.sleep (RETRY_DELAY * 1),
            ExtCall.embedAttempt i 1, ExtCall.sleep (RETRY_DELAY * 2),
            ExtCall.embedAttempt i 2])) ∧
    (env.embedAttemptRes i c 0 = Except.error e0 →
      env.embedAttemptRes i c 1 = Except.error e1 →
      env.embedAttemptRes i c 2 = Except.error e2 →
      embedChunkLoop env i c 0 MAX_RETRIES =
        (Except.error e2,
          [ExtCall.embedAttempt i 0, ExtCall.sleep (RETRY_DELAY * 1),
            ExtCall.embedAttempt i 1, ExtCall.sleep (RETRY_DELAY * 2),
            ExtCall.embedAttempt i 2])) ∧
    (∀ chunks : List String,
      (∀ j cj, chunks.get? j = some cj →
        ∃ vv, (embedChunkLoop env j cj 0 MAX_RETRIES).1 = Except.ok vv) →
      ∃ vs, (embed_chunks env chunks).1 = Except.ok vs ∧
        vs.length = chunks.length) ∧
    (∀ (chunks : List String) (j : Nat) (cj e : String),
      chunks.get? j = some cj →
      (∀ j2 c2, j2 < j → chunks.get? j2 = some c2 →
        ∃ vv, (embedChunkLoop env j2 c2 0 MAX_RETRIES).1 = Except.ok vv) →
      (embedChunkLoop env j cj 0 MAX_RETRIES).1 = Except.error e →
      (embed_chunks env chunks).1 = Except.error e) := by
  refine ⟨?_, ?_, ?_, ?_, ?_, ?_⟩
  · intro h0
    simp [embedChunkLoop, MAX_RETRIES, h0]
  · intro h0 h1
    simp [embedChunkLoop, MAX_RETRIES, RETRY_DELAY, h0, h1]
  · intro h0 h1 h2
    simp [embedChunkLoop, MAX_RETRIES, RETRY_DELAY, h0, h1, h2]
  · intro h0 h1 h2
    simp [embedChunkLoop, MAX_RETRIES, RETRY_DELAY, h0, h1, h2]
  · intro chunks h
    have hh : ∀ j cj, chunks.get? j = some cj →
        ∃ vv, (embedChunkLoop env (0 + j) cj 0 MAX_RETRIES).1 =
          Except.ok vv := by
      intro j cj hj
      rw [Nat.zero_add]
      exact h j cj hj
    exact embedChunksGo_all_ok env chunks 0 hh
  · intro chunks j cj e hj hprev herr
    have hprev2 : ∀ j2 c2, j2 < j → chunks.get? j2 = some c2 →
        ∃ vv, (embedChunkLoop env (0 + j2) c2 0 MAX_RETRIES).1 =
          Except.ok vv := by
      intro j2 c2 hlt h2
      rw [Nat.zero_add]
      exact hprev j2 c2 hlt h2
    have herr2 : (embedChunkLoop env (0 + j) cj 0 MAX_RETRIES).1 =
        Except.error e := by
      rw [Nat.zero_add]; exact herr
    exact embedChunksGo_first_error env chunks 0 j cj e hj hprev2 herr2

/-- C3 amended, witness: the exhaustion conjunct and the whole-call failure
conjunct applied to the fixture whose provider always fails chunk 0 with
"boom". -/
theorem embed_chunks_retry_policy_witness :
    embedChunkLoop envFail0 0 "a" 0 MAX_RETRIES =
      (Except.error "boom",
        [ExtCall.embedAttempt 0 0, ExtCall.sleep (RETRY_DELAY * 1),
          ExtCall.embedAttempt 0 1, ExtCall.sleep (RETRY_DELAY * 2),
          ExtCall.embedAttempt 0 2]) ∧
    (embed_chunks envFail0 ["a"]).1 = Except.error "boom" := by
  have h := embed_chunks_retry_policy envFail0 0 "a" "boom" "boom" "boom" []
  refine ⟨h.2.2.2.1 rfl rfl rfl, ?_⟩
  exact h.2.2.2.2.2 ["a"] 0 "a" "boom" rfl
    (fun j2 c2 hlt _ => absurd hlt (Nat.not_lt_zero j2)) rfl

theorem embedChunkLoop_no_upsert (env : Env) (i : Nat) (c : String) :
    ∀ (fuel retries : Nat) (x : ExtCall),
      x ∈ (embedChunkLoop env i c retries fuel).2 →
      x.isUpsertCall = false := by
  intro fuel
  induction fuel with
  | zero => intro retries x hx; simp [embedChunkLoop] at hx
  | succ fuel ih =>
      intro retries x hx
      simp only [embedChunkLoop] at hx
      cases henv : env.embedAttemptRes i c retries with
      | ok v =>
          rw [henv] at hx
          simp at hx
          subst hx
          rfl
      | error e =>
          rw [henv] at hx
          by_cases hlt : retries + 1 < MAX_RETRIES
          · simp only [if_pos hlt, List.mem_cons] at hx
            rcases hx with hx | hx | hx
            · subst hx; rfl
            · subst hx; rfl
            · exact ih (retries + 1) x hx
          · simp only [if_neg hlt] at hx
            simp at hx
            subst hx
            rfl

theorem embedChunksGo_no_upsert (env : Env) :
    ∀ (l : List String) (k : Nat) (x : ExtCall),
      x ∈ (embedChunksGo env k l).2 → x.isUpsertCall = false := by
  intro l
  induction l with
  | nil => intro k x hx; simp [embedChunksGo] at hx
  | cons c cs ih =>
      intro k x hx
      simp only [embedChunksGo] at hx
      split at hx
      · exact embedChunkLoop_no_upsert env k c MAX_RETRIES 0 x hx
      · split at hx
        · rcases List.mem_append.mp hx with hx | hx
          · exact embedChunkLoop_no_upsert env k c MAX_RETRIES 0 x hx
          · exact ih (k + 1) x hx
        · rcases List.mem_append.mp hx with hx | hx
          · exact embedChunkLoop_no_upsert env k c MAX_RETRIES 0 x hx
          · exact ih (k + 1) x hx

/-- C4: in both pipelines, when the embedding stage fails for some chunk
after all retries, the error envelope is returned, the vector store is left
exactly at its pre-call value, and no upsert call is made. -/
theorem pipeline_no_upsert_on_embed_failure (env : Env) (store : Store)
    (file_path : String) (user_id : Int) (user_name title : String)
    (library_item_id : Int) (transcript youtube_url : String) :
    (∀ text chunks e,
      env.extractPdfRes file_path = Except.ok text →
      env.splitRes text = Except.ok chunks →
      (embed_chunks env chunks).1 = Except.error e →
      (process_pdf env store file_path user_id user_name title
          library_item_id).result = errorEnvelope e ∧
      (process_pdf env store file_path user_id user_name title
          library_item_id).store = store ∧
      (∀ x ∈ (process_pdf env store file_path user_id user_name title
          library_item_id).trace, x.isUpsertCall = false)) ∧
    (∀ chunks e,
      env.splitRes transcript = Except.ok chunks →
      (embed_chunks env chunks).1 = Except.error e →
      (process_youtube_transcript env store transcript user_id user_name
          title youtube_url library_item_id).result = errorEnvelope e ∧
      (process_youtube_transcript env store transcript user_id user_name
          title youtube_url library_item_id).store = store ∧
      (∀ x ∈ (process_youtube_transcript env store transcript user_id
          user_name title youtube_url library_item_id).trace,
        x.isUpsertCall = false)) := by
  constructor
  · intro text chunks e hext hsplit hemb
    refine ⟨?_, ?_, ?_⟩
    · simp only [process_pdf, hext, hsplit, hemb]
    · simp only [process_pdf, hext, hsplit, hemb]
    · intro x hx
      simp only [process_pdf, hext, hsplit, hemb, List.mem_cons] at hx
      rcases hx with hx | hx | hx
      · subst hx; rfl
      · subst hx; rfl
      · exact embedChunksGo_no_upsert env chunks 0 x hx
  · intro chunks e hsplit hemb
    refine ⟨?_, ?_, ?_⟩
    · simp only [process_youtube_transcript, hsplit, hemb]
    · simp only [process_youtube_transcript, hsplit, hemb]
    · intro x hx
      simp only [process_youtube_transcript, hsplit, hemb,
        List.mem_cons] at hx
      rcases hx with hx | hx
      · subst hx; rfl
      · exact embedChunksGo_no_upsert env chunks 0 x hx

/-- C4, witness: the PDF pipeline on a provider that fails every embedding
attempt returns the error envelope and leaves the store untouched; the
trace is checked upsert-free by evaluation. -/
theorem pipeline_no_upsert_on_embed_failure_witness :
    (process_pdf envPdfEmbedFail storeW "f" 7 "u" "t" 42).result =
      errorEnvelope "boom" ∧
    (process_pdf envPdfEmbedFail storeW "f" 7 "u" "t" 42).store = storeW ∧
    (process_pdf envPdfEmbedFail storeW "f" 7 "u" "t" 42).trace.all
      (fun x => !x.isUpsertCall) = true := by
  have h := (pipeline_no_upsert_on_embed_failure envPdfEmbedFail storeW "f"
    7 "u" "t" 42 "tr" "url").1 "text" ["a", "b"] "boom" rfl rfl rfl
  exact ⟨h.1, h.2.1, by decide⟩

theorem isEnvelope_errorEnvelope (e : String) : isEnvelope (errorEnvelope e) :=
  Or.inr ⟨rfl, ⟨e, rfl⟩⟩

theorem process_pdf_isEnvelope (env : Env) (store : Store)
    (file_path : String) (user_id : Int) (user_name title : String)
    (library_item_id : Int) :
    isEnvelope (process_pdf env store file_path user_id user_name title
      library_item_id).result := by
  unfold process_pdf
  split
  · exact isEnvelope_errorEnvelope _
  · split
    · exact isEnvelope_errorEnvelope _
    · dsimp only
      split
      · exact isEnvelope_errorEnvelope _
      · split
        · exact isEnvelope_errorEnvelope _
        · exact Or.inl rfl

theorem process_youtube_transcript_isEnvelope (env : Env) (store : Store)
    (transcript : String) (user_id : Int) (user_name title : String)
    (youtube_url : String) (library_item_id : Int) :
    isEnvelope (process_youtube_transcript env store transcript user_id
      user_name title youtube_url library_item_id).result := by
  unfold process_youtube_transcript
  split
  · exact isEnvelope_errorEnvelope _
  · dsimp only
    split
    · exact isEnvelope_errorEnvelope _
    · split
      · exact isEnvelope_errorEnvelope _
      · exact Or.inl rfl

/-- C5: each orchestrator entry point (process_pdf_upload,
process_youtube_upload, delete_document, search_documents) is a total
function of the environment and always returns a dictionary whose status is
"success", or whose status is "error" with an error message present —
whatever any internal stage does, nothing escapes as a raised fault. -/
theorem orchestrator_uniform_envelope (env : Env) (store : Store)
    (file_path youtube_url query : String) (user_id : Int)
    (user_name title : String) (library_item_id : Int) (limit : Nat) :
    isEnvelope (process_pdf_upload env store file_path user_id user_name
      title library_item_id).result ∧
    isEnvelope (process_youtube_upload env store youtube_url user_id
      user_name title library_item_id).result ∧
    isEnvelope (delete_document env store library_item_id).result ∧
    isEnvelope (search_documents env store query user_id limit).result := by
  refine ⟨?_, ?_, ?_, ?_⟩
  · exact process_pdf_isEnvelope env store file_path user_id user_name title
      library_item_id
  · unfold process_youtube_upload
    dsimp only
    split
    · exact isEnvelope_errorEnvelope _
    · split
      · exact isEnvelope_errorEnvelope _
      · exact process_youtube_transcript_isEnvelope env store _ user_id
          user_name title youtube_url library_item_id
  · unfold delete_document
    dsimp only
    split
    · exact Or.inl rfl
    · exact isEnvelope_errorEnvelope _
  · unfold search_documents
    split
    · exact Or.inr ⟨rfl, ⟨_, rfl⟩⟩
    · dsimp only
      split
      · exact Or.inr ⟨rfl, ⟨_, rfl⟩⟩
      · exact Or.inl rfl

theorem delete_removes_exactly_and_idempotent (env : Env) (store : Store)
    (lid : Int) (hdel : env.deleteFail = none) :
    (delete_by_library_item_id env store lid).1 = Except.ok () ∧
    (∀ p : PointStruct,
      p ∈ (delete_by_library_item_id env store lid).2.1 ↔
        (p ∈ store ∧ p.payload.library_item_id ≠ lid)) ∧
    (delete_by_library_item_id env
      (delete_by_library_item_id env store lid).2.1 lid).1 = Except.ok () ∧
    (delete_by_library_item_id env
      (delete_by_library_item_id env store lid).2.1 lid).2.1 =
      (delete_by_library_item_id env store lid).2.1 ∧
    (delete_by_library_item_id env store lid).2.1.length -
      (delete_by_library_item_id env
        (delete_by_library_item_id env store lid).2.1 lid).2.1.length = 0 := by
  refine ⟨?_, ?_, ?_, ?_, ?_⟩
  · simp [delete_by_library_item_id, hdel]
  · intro p
    simp [delete_by_library_item_id, hdel, List.mem_filter, bne_iff_ne]
  · simp [delete_by_library_item_id, hdel]
  · simp [delete_by_library_item_id, hdel, List.filter_filter]
  · simp [delete_by_library_item_id, hdel, List.filter_filter]

theorem delete_removes_exactly_and_idempotent_witness :
    (delete_by_library_item_id envA storeW 42).1 = Except.ok () ∧
    ((⟨"p3", [3], payloadW 8 43 "c" 0⟩ : PointStruct) ∈
        (delete_by_library_item_id envA storeW 42).2.1 ↔
      ((⟨"p3", [3], payloadW 8 43 "c" 0⟩ : PointStruct) ∈ storeW ∧
        (payloadW 8 43 "c" 0).library_item_id ≠ 42)) ∧
    (delete_by_library_item_id envA
      (delete_by_library_item_id envA storeW 42).2.1 42).1 = Except.ok () ∧
    (delete_by_library_item_id envA
      (delete_by_library_item_id envA storeW 42).2.1 42).2.1 =
      (delete_by_library_item_id envA storeW 42).2.1 := by
  have h := delete_removes_exactly_and_idempotent envA storeW 42 rfl
  exact ⟨h.1, h.2.1 ⟨"p3", [3], payloadW 8 43 "c" 0⟩, h.2.2.1, h.2.2.2.1⟩

/-- C6: a successful search_documents call returns the success dictionary
whose results list has at most limit entries, is ordered by descending
similarity score, each entry is the five-field projection of a stored
record, and every returned entry comes from a record whose stored payload
user_id equals the requesting user — no cross-user leakage. -/
theorem search_documents_user_isolation (env : Env) (store : Store)
    (query : String) (user_id : Int) (limit : Nat) (qv : Vec)
    (hq : env.queryEmbedRes query = Except.ok qv)
    (hs : env.searchFail = none) :
    (search_documents env store query user_id limit).result =
      [("status", Value.vStr "success"),
       ("results", Value.vResList (searchResults env store qv user_id limit)),
       ("count",
         Value.vNat (searchResults env store qv user_id limit).length)] ∧
    (searchResults env store qv user_id limit).length ≤ limit ∧
    List.Pairwise (fun a b => b.score ≤ a.score)
      (searchResults env store qv user_id limit) ∧
    (∀ r ∈ searchResults env store qv user_id limit,
      ∃ p ∈ store, p.payload.user_id = user_id ∧
        r.text = p.payload.text ∧ r.title = p.payload.title ∧
        r.source_type = p.payload.source_type ∧
        r.score = env.score qv p.vector ∧
        r.chunk_index = p.payload.chunk_index) := by
  haveI htr : IsTrans (PointStruct × Int) (fun a b => b.2 ≤ a.2) :=
    ⟨fun a b c hab hbc => le_trans hbc hab⟩
  haveI hto : IsTotal (PointStruct × Int) (fun a b => b.2 ≤ a.2) :=
    ⟨fun a b => le_total b.2 a.2⟩
  refine ⟨?_, ?_, ?_, ?_⟩
  · simp [search_documents, hq, hs]
  · simp only [searchResults, List.length_map, qdrantSearch,
      List.length_take]
    exact Nat.min_le_left _ _
  · have hsorted := List.sorted_insertionSort
      (fun a b : PointStruct × Int => b.2 ≤ a.2)
      ((store.filter (fun p => p.payload.user_id == user_id)).map
        (fun p => (p, env.score qv p.vector)))
    have hpair : List.Pairwise (fun a b : PointStruct × Int => b.2 ≤ a.2)
        (qdrantSearch env store qv user_id limit) :=
      List.Pairwise.sublist (List.take_sublist limit _) hsorted
    simp only [searchResults]
    exact List.pairwise_map.mpr hpair
  · intro r hr
    simp only [searchResults, List.mem_map] at hr
    obtain ⟨h, hhits, hproj⟩ := hr
    have hmem1 : h ∈ ((store.filter
        (fun p => p.payload.user_id == user_id)).map
        (fun p => (p, env.score qv p.vector))).insertionSort
        (fun a b => b.2 ≤ a.2) :=
      (List.take_sublist limit _).subset hhits
    have hmem2 : h ∈ (store.filter
        (fun p => p.payload.user_id == user_id)).map
        (fun p => (p, env.score qv p.vector)) :=
      (List.perm_insertionSort (fun a b : PointStruct × Int => b.2 ≤ a.2)
        _).mem_iff.mp hmem1
    obtain ⟨p, hpf, hpe⟩ := List.mem_map.mp hmem2
    obtain ⟨hpstore, hpuid⟩ := List.mem_filter.mp hpf
    subst hpe
    subst hproj
    refine ⟨p, hpstore, ?_, rfl, rfl, rfl, rfl, rfl⟩
    simpa using hpuid

/-- C6, witness: a store holding records for users 7 and 8, searched as
user 7 with limit 5, returns the two user-7 records in descending score
order and nothing of user 8. -/
theorem search_documents_user_isolation_witness :
    (search_documents envSearch storeW "q" 7 5).result =
      [("status", Value.vStr "success"),
       ("results", Value.vResList (searchResults envSearch storeW [1] 7 5)),
       ("count", Value.vNat (searchResults envSearch storeW [1] 7 5).length)] ∧
    (searchResults envSearch storeW [1] 7 5).length ≤ 5 ∧
    searchResults envSearch storeW [1] 7 5 =
      [⟨"b", "t", "pdf", 9, 1⟩, ⟨"a", "t", "pdf", 5, 0⟩] := by
  have h := search_documents_user_isolation envSearch storeW "q" 7 5 [1]
    rfl rfl
  exact ⟨h.1, h.2.1, by decide⟩

theorem fetch_transcript_no_vid (env : Env) (url : String)
    (hvid : extract_video_id url = none) (languages : List String) :
    fetch_transcript env url languages = (none, []) := by
  simp [fetch_transcript, hvid]

theorem fallbackLoop_no_vid (env : Env) (url : String)
    (hvid : extract_video_id url = none) :
    ∀ groups : List (List String),
      fallbackLoop env url groups = (none, []) := by
  intro groups
  induction groups with
  | nil => rfl
  | cons g gs ih =>
      simp only [fallbackLoop, fetch_transcript_no_vid env url hvid g, ih]
      rfl

theorem fallbackLoop_all_fail (env : Env) (url vid : String)
    (hvid : extract_video_id url = some vid) :
    ∀ groups : List (List String),
      (∀ g ∈ groups, ∀ s, env.fetchRes vid g = FetchOutcome.fetched s →
        String.intercalate " " s = "") →
      fallbackLoop env url groups =
        (none, groups.map ExtCall.fetchCall) := by
  intro groups
  induction groups with
  | nil => intro _; rfl
  | cons g gs ih =>
      intro hfail
      have htail := ih (fun g2 hg2 => hfail g2 (List.mem_cons_of_mem g hg2))
      simp only [fallbackLoop, fetch_transcript, hvid]
      cases hf : env.fetchRes vid g with
      | fetched s =>
          have hemp : String.intercalate " " s = "" :=
            hfail g (List.mem_cons_self g gs) s hf
          have hb : (String.intercalate " " s).isEmpty = true := by
            rw [hemp]
            decide
          simp [hb, htail]
      | transcriptsDisabled => simp [htail]
      | noTranscriptFound => simp [htail]
      | fetchError m => simp [htail]

theorem fallbackLoop_first_success (env : Env) (url vid : String)
    (hvid : extract_video_id url = some vid) :
    ∀ (groups : List (List String)) (j : Nat) (g segs : List String),
      groups.get? j = some g →
      (∀ j2 g2, j2 < j → groups.get? j2 = some g2 →
        ∀ s, env.fetchRes vid g2 = FetchOutcome.fetched s →
          String.intercalate " " s = "") →
      env.fetchRes vid g = FetchOutcome.fetched segs →
      String.intercalate " " segs ≠ "" →
      fallbackLoop env url groups =
        (some (String.intercalate " " segs),
          (groups.take (j + 1)).map ExtCall.fetchCall) := by
  intro groups
  induction groups with
  | nil => intro j g segs hj _ _ _; simp at hj
  | cons g0 gs ih =>
      intro j g segs hj hprev hsucc hne
      have hbool : (String.intercalate " " segs).isEmpty = false := by
        cases he : (String.intercalate " " segs).isEmpty
        · rfl
        · exact absurd ((String.isEmpty_iff _).mp he) hne
      cases j with
      | zero =>
          simp at hj
          subst hj
          simp [fallbackLoop, fetch_transcript, hvid, hsucc, hbool]
      | succ j =>
          have hg0 : ∀ s, env.fetchRes vid g0 = FetchOutcome.fetched s →
              String.intercalate " " s = "" :=
            hprev 0 g0 (Nat.succ_pos j) rfl
          simp only [List.get?_cons_succ] at hj
          have hprev2 : ∀ j2 g2, j2 < j → gs.get? j2 = some g2 →
              ∀ s, env.fetchRes vid g2 = FetchOutcome.fetched s →
                String.intercalate " " s = "" := by
            intro j2 g2 hlt h2
            exact hprev (j2 + 1) g2 (by omega) (by simpa using h2)
          have htail := ih j g segs hj hprev2 hsucc hne
          simp only [fallbackLoop, fetch_transcript, hvid]
          cases hf : env.fetchRes vid g0 with
          | fetched s =>
              have hemp : String.intercalate " " s = "" := hg0 s hf
              have hb : (String.intercalate " " s).isEmpty = true := by
                rw [hemp]
                decide
              simp [hb, htail]
          | transcriptsDisabled => simp [htail]
          | noTranscriptFound => simp [htail]
          | fetchError m => simp [htail]

/-- C7 counterexample: the claim as stated is false on the code.  With a
provider whose en fetch succeeds but yields an empty transcript (zero
segments, joined to "") and whose en-US fetch yields "hello", the first
successfully fetched transcript is "", yet the call makes a second attempt
and returns the en-US transcript "hello" — the source's `if transcript:`
(youtube_agent.py:106) is string truthiness and skips the empty
transcript. -/
theorem fetch_fallback_empty_transcript_counterexample :
    envEmptyEn.fetchRes "abc" ["en"] = FetchOutcome.fetched [] ∧
    String.intercalate " " ([] : List String) = "" ∧
    extract_video_id "https://youtu.be/abc" = some "abc" ∧
    language_attempts.get? 0 = some ["en"] ∧
    fetch_transcript_with_fallback envEmptyEn "https://youtu.be/abc" =
      (some "hello",
        [ExtCall.fetchCall ["en"], ExtCall.fetchCall ["en-US"]]) ∧
    (some ("hello" : String) ≠ some ("" : String)) := by
  refine ⟨by decide, by decide, by decide, rfl, by decide, by decide⟩

/-- C7 amended: the fallback tries the six language-attempt groups en,
en-US, en-GB, es+en, fr+en, de+en in this fixed order and returns the first
fetched NON-EMPTY transcript — the `if transcript:` test is Python string
truthiness, so a fetched empty transcript is treated like a failed attempt
and the next group is tried; it returns none, with no exception, when the
video id cannot be extracted (with no provider call) and when every
attempted group fails or yields only an empty transcript; a failed attempt
never aborts the later attempts, whose calls all appear in the trace. -/
theorem fetch_transcript_fallback_first_nonempty (env : Env)
    (url : String) :
    language_attempts =
      [["en"], ["en-US"], ["en-GB"], ["es", "en"], ["fr", "en"],
        ["de", "en"]] ∧
    (extract_video_id url = none →
      fetch_transcript_with_fallback env url = (none, [])) ∧
    (∀ vid, extract_video_id url = some vid →
      ∀ j g segs, language_attempts.get? j = some g →
        (∀ j2 g2, j2 < j → language_attempts.get? j2 = some g2 →
          ∀ s, env.fetchRes vid g2 = FetchOutcome.fetched s →
            String.intercalate " " s = "") →
        env.fetchRes vid g = FetchOutcome.fetched segs →
        String.intercalate " " segs ≠ "" →
        fetch_transcript_with_fallback env url =
          (some (String.intercalate " " segs),
            (language_attempts.take (j + 1)).map ExtCall.fetchCall)) ∧
    (∀ vid, extract_video_id url = some vid →
      (∀ g ∈ language_attempts, ∀ s,
        env.fetchRes vid g = FetchOutcome.fetched s →
          String.intercalate " " s = "") →
      fetch_transcript_with_fallback env url =
        (none, language_attempts.map ExtCall.fetchCall)) := by
  refine ⟨rfl, ?_, ?_, ?_⟩
  · intro hvid
    exact fallbackLoop_no_vid env url hvid language_attempts
  · intro vid hvid j g segs hj hprev hsucc hne
    exact fallbackLoop_first_success env url vid hvid language_attempts j g
      segs hj hprev hsucc hne
  · intro vid hvid hfail
    exact fallbackLoop_all_fail env url vid hvid language_attempts hfail

/-- C7 amended, witness: a provider with a non-empty transcript only for
the en-GB group makes the fallback succeed on the third attempt, with the
first two failed attempts still in the trace. -/
theorem fetch_transcript_fallback_first_nonempty_witness :
    fetch_transcript_with_fallback envFetchGB "https://youtu.be/abc" =
      (some (String.intercalate " " ["hello", "world"]),
        (language_attempts.take (2 + 1)).map ExtCall.fetchCall) := by
  have h := fetch_transcript_fallback_first_nonempty envFetchGB
    "https://youtu.be/abc"
  refine h.2.2.1 "abc" (by decide) 2 ["en-GB"] ["hello", "world"] rfl
    ?_ rfl (by decide)
  intro j2 g2 hlt hg s hcon
  interval_cases j2
  · simp [language_attempts] at hg
    subst hg
    simp [envFetchGB] at hcon
  · simp [language_attempts] at hg
    subst hg
    simp [envFetchGB] at hcon

theorem fetch_transcript_trace (env : Env) (url : String)
    (languages : List String) :
    ∀ x ∈ (fetch_transcript env url languages).2,
      x = ExtCall.fetchCall languages := by
  intro x hx
  unfold fetch_transcript at hx
  cases hvid : extract_video_id url with
  | none => simp [hvid] at hx
  | some vid =>
      cases hf : env.fetchRes vid languages with
      | fetched s => simp [hvid, hf] at hx; exact hx
      | transcriptsDisabled => simp [hvid, hf] at hx; exact hx
      | noTranscriptFound => simp [hvid, hf] at hx; exact hx
      | fetchError m => simp [hvid, hf] at hx; exact hx

theorem fallbackLoop_trace_fetch_only (env : Env) (url : String) :
    ∀ (groups : List (List String)) (x : ExtCall),
      x ∈ (fallbackLoop env url groups).2 → x.isFetchCall = true := by
  intro groups
  induction groups with
  | nil => intro x hx; simp [fallbackLoop] at hx
  | cons g gs ih =>
      intro x hx
      simp only [fallbackLoop] at hx
      split at hx
      · split at hx
        · rcases List.mem_append.mp hx with hx | hx
          · have hx2 := fetch_transcript_trace env url g x hx
            subst hx2
            rfl
          · exact ih x hx
        · have hx2 := fetch_transcript_trace env url g x hx
          subst hx2
          rfl
      · rcases List.mem_append.mp hx with hx | hx
        · have hx2 := fetch_transcript_trace env url g x hx
          subst hx2
          rfl
        · exact ih x hx

/-- C8: when the fetch stage yields no transcript — the fallback returns
none, or an empty transcript, which `if not transcript_result:` treats the
same way — process_youtube_upload returns the transcript-failure error
envelope at once, the store is left unchanged, and no chunking, embedding
or upsert call occurs (the trace holds nothing but transcript fetch
attempts). -/
theorem youtube_upload_aborts_without_transcript (env : Env) (store : Store)
    (youtube_url : String) (user_id : Int) (user_name title : String)
    (library_item_id : Int)
    (hfetch : ∀ t, (fetch_transcript_with_fallback env youtube_url).1 =
      some t → t = "") :
    (process_youtube_upload env store youtube_url user_id user_name title
      library_item_id).result =
      errorEnvelope "Failed to fetch YouTube transcript" ∧
    (process_youtube_upload env store youtube_url user_id user_name title
      library_item_id).store = store ∧
    (∀ x ∈ (process_youtube_upload env store youtube_url user_id user_name
        title library_item_id).trace,
      x.isChunkSplit = false ∧ x.isEmbedAttempt = false ∧
        x.isUpsertCall = false) := by
  have key : process_youtube_upload env store youtube_url user_id user_name
      title library_item_id =
      ⟨errorEnvelope "Failed to fetch YouTube transcript", store,
        (fetch_transcript_with_fallback env youtube_url).2⟩ := by
    unfold process_youtube_upload
    dsimp only
    cases hf : (fetch_transcript_with_fallback env youtube_url).1 with
    | none => rfl
    | some t =>
        have ht : t = "" := hfetch t hf
        subst ht
        rfl
  refine ⟨by rw [key], by rw [key], ?_⟩
  intro x hx
  rw [key] at hx
  have hfo := fallbackLoop_trace_fetch_only env youtube_url
    language_attempts x hx
  cases x <;> simp_all [ExtCall.isFetchCall, ExtCall.isChunkSplit,
    ExtCall.isEmbedAttempt, ExtCall.isUpsertCall]

/-- C8, witness: a provider that fetches an empty transcript for every
language group — the fallback ends with none — leaves the store untouched
and yields the fixed error envelope without any chunking, embedding or
upsert call (the trace is checked by evaluation). -/
theorem youtube_upload_aborts_without_transcript_witness :
    (process_youtube_upload envEmptyAll storeW "https://youtu.be/abc" 7 "u"
      "t" 42).result = errorEnvelope "Failed to fetch YouTube transcript" ∧
    (process_youtube_upload envEmptyAll storeW "https://youtu.be/abc" 7 "u"
      "t" 42).store = storeW ∧
    (process_youtube_upload envEmptyAll storeW "https://youtu.be/abc" 7 "u"
      "t" 42).trace.all (fun x =>
        !x.isChunkSplit && !x.isEmbedAttempt && !x.isUpsertCall) = true := by
  have hn : (fetch_transcript_with_fallback envEmptyAll
      "https://youtu.be/abc").1 = none := by decide
  have h := youtube_upload_aborts_without_transcript envEmptyAll storeW
    "https://youtu.be/abc" 7 "u" "t" 42
    (fun t ht => by rw [hn] at ht; exact Option.noConfusion ht)
  exact ⟨h.1, h.2.1, by decide⟩

end StudyVault
